import Mathlib

/-
Verification of the completion-detection and exactly-once notification
pipeline of the slack_app repository.

The Python classes are shallowly embedded as pure Lean functions:
  * `scripts/common/s3.py`            -> `write_to_s3`, `remove_object`
  * `scripts/background/meta_process.py` -> `load_meta_file`, `delete_meta_files`
  * `scripts/background/user_notifications.py`
        -> `check_notifications_log`, `filter_records_marked_completed_not_notified`,
           `get_completed_tickets`, `send_notifications`, `log_notifications`, `notify`
I/O boundaries (S3 fetches, the Slack client, the wall clock) become explicit
parameters; a Python attribute that may be unassigned and a fetch that may
raise become `Option`; a Python exception escaping a method becomes `Except`.
-/

namespace SlackApp

/-- A calendar timestamp, the value produced by `datetime.now()`.  Only the
fields used by the three configured `strftime`/`strptime` formats are kept. -/
structure DateTime where
  year : Nat
  month : Nat
  day : Nat
  hour : Nat
  minute : Nat
  second : Nat
  deriving Repr, DecidableEq

/-- Zero padding to 2 digits, as `strftime` does for `%m %d %H %M %S`. -/
def pad2 (n : Nat) : String :=
  if n < 10 then "0" ++ toString n else toString n

/-- Zero padding to 4 digits, as `strftime` does for `%Y`. -/
def pad4 (n : Nat) : String :=
  if n < 10 then "000" ++ toString n
  else if n < 100 then "00" ++ toString n
  else if n < 1000 then "0" ++ toString n
  else toString n

/-- The canonical datetime format `strftime("%Y-%m-%d %H:%M:%S")` —
`DateTimeFormats.datetime_format` of `scripts/common/constants.py`. -/
def formatDateTime (d : DateTime) : String :=
  pad4 d.year ++ "-" ++ pad2 d.month ++ "-" ++ pad2 d.day ++ " "
    ++ pad2 d.hour ++ ":" ++ pad2 d.minute ++ ":" ++ pad2 d.second

/-- The file-name format `strftime("%Y%m%d_%H%M")` — `DateTimeFormats.date_file_name_format`,
used to name snapshot files. -/
def formatFileDate (d : DateTime) : String :=
  pad4 d.year ++ pad2 d.month ++ pad2 d.day ++ "_" ++ pad2 d.hour ++ pad2 d.minute

/-- Splitting a character list at a separator, the list-level counterpart of
`str.split(sep)`. -/
def splitOnChar (c : Char) : List Char → List (List Char)
  | [] => [[]]
  | x :: xs =>
    if x == c then [] :: splitOnChar c xs
    else
      match splitOnChar c xs with
      | [] => [[x]]
      | y :: ys => (x :: y) :: ys

/-- A field of the canonical format that `strptime` accepts: exactly `width`
digits, read as a number. -/
def digits? (width : Nat) (l : List Char) : Option Nat :=
  if l.length = width ∧ l.all Char.isDigit then
    some (l.foldl (fun n c => n * 10 + (c.toNat - 48)) 0)
  else none

/-- Embedding of `datetime.strptime(s, "%Y-%m-%d %H:%M:%S")`: `none` models the
`ValueError` that `strptime` raises on input not in the canonical format. -/
def parseDateTime (s : String) : Option DateTime :=
  match splitOnChar ' ' s.data with
  | [d, t] =>
    match splitOnChar '-' d, splitOnChar ':' t with
    | [y, mo, da], [h, mi, se] =>
      match digits? 4 y, digits? 2 mo, digits? 2 da,
            digits? 2 h, digits? 2 mi, digits? 2 se with
      | some yn, some mon, some dan, some hn, some minn, some sen =>
        if 1 ≤ mon ∧ mon ≤ 12 ∧ 1 ≤ dan ∧ dan ≤ 31 ∧ hn ≤ 23 ∧ minn ≤ 59 ∧ sen ≤ 59
        then some ⟨yn, mon, dan, hn, minn, sen⟩
        else none
      | _, _, _, _, _, _ => none
    | _, _ => none
  | _ => none

/-- The semantic-field view of one row of a meta snapshot: the dictionary
produced by `NotionConnector.process_db_object`, read through the configured
field map (`notion_args.notion_page_*["text"]` keys).  Only the fields the
notification pipeline reads are kept. -/
structure TicketRecord where
  ticket_id : String
  status : String
  title : String
  created_at : String
  due_date : String
  page_url : String
  slack_id : String
  deriving Repr, DecidableEq

/-- One row of a notification log snapshot
(`user_notifications.py`, `send_notifications`). -/
structure LogEntry where
  ticket_id : String
  notification_status : String
  notified_at : String
  deriving Repr, DecidableEq

/-- A CSV record as an ordered association list from field name to value
(a Python dict, key insertion order preserved). -/
abbrev Row := List (String × String)

/-- The dict built per candidate in `send_notifications`, in key insertion
order: `notification_status`, `notified_at`, `ticket_id`. -/
def LogEntry.toRow (e : LogEntry) : Row :=
  [("notification_status", e.notification_status),
   ("notified_at", e.notified_at),
   ("ticket_id", e.ticket_id)]

/-- The Python exceptions the embedded methods can raise. -/
inductive PyError where
  | unboundLocalError (name : String)
  | attributeError (name : String)
  | indexError
  | valueError
  deriving Repr, DecidableEq

instance {ε α : Type} [DecidableEq ε] [DecidableEq α] : DecidableEq (Except ε α)
  | .error e, .error f =>
    if h : e = f then .isTrue (by rw [h]) else .isFalse (by simp [h])
  | .error _, .ok _ => .isFalse (by simp)
  | .ok _, .error _ => .isFalse (by simp)
  | .ok a, .ok b =>
    if h : a = b then .isTrue (by rw [h]) else .isFalse (by simp [h])

/-- Outcome of `S3BucketConnector.write_to_s3`: either the guarded
empty-list branch that logs and writes nothing, or a written file with its
header fields, rows, and key. -/
inductive WriteResult where
  | skipped
  | written (fields : List String) (rows : List Row) (key : String)
  deriving Repr, DecidableEq

/-- Embedding of `S3BucketConnector.write_to_s3` (s3.py lines 94-113), statement for
statement: `fields = list(data[0].keys())` runs before the `if not data`
guard, so an empty list raises `IndexError` first. -/
def write_to_s3 (data : List Row) (file_name : String) : Except PyError WriteResult :=
  match data.head? with
  | none => .error .indexError
  | some first =>
    let fields := first.map Prod.fst
    if data.isEmpty then .ok .skipped
    else .ok (.written fields data file_name)

/-- The test `e.notification_status == "success"`. -/
def isSuccess (e : LogEntry) : Bool :=
  e.notification_status == "success"

/-- The comprehension `notified = [t["ticket_id"] for t in log if t["notification_status"] == "success"]`
(user_notifications.py lines 137-141). -/
def successIds (log : List LogEntry) : List String :=
  (log.filter isSuccess).map (·.ticket_id)

/-- Embedding of `CompletedTicketNotifier.__check_notifications_log` (lines 114-148).
`notifLog` is the result of the `get_most_recent_modified_file("notifications")`
fetch: `none` when the fetch raises (the except branch returns `ticket_data`
unchanged and leaves `self.notif_log` unassigned). -/
def check_notifications_log (notifLog : Option (List LogEntry))
    (ticket_data : List TicketRecord) : List TicketRecord :=
  match notifLog with
  | none => ticket_data
  | some log =>
    ticket_data.filter (fun item => !((successIds log).contains item.ticket_id))

/-- The completed-label membership test `dct[status_key] in completed_labels`
applied across a snapshot (user_notifications.py lines 59-64 and 93-98). -/
def filterCompleted (labels : List String) (meta : List TicketRecord) : List TicketRecord :=
  meta.filter (fun r => labels.contains r.status)

/-- Embedding of `CompletedTicketNotifier.__filter_records_marked_completed_not_notified`
(lines 76-112).  `previous` is the `get_most_recent_modified_file("data_tickets")`
fetch: `none` when it raises.  In that case the except branch only logs and
falls through, so the comprehension over the never-assigned local
`last_meta_file` raises `UnboundLocalError`. -/
def filter_records_marked_completed_not_notified (labels : List String)
    (previous : Option (List TicketRecord)) (completed_tickets : List TicketRecord) :
    Except PyError (List TicketRecord) :=
  match previous with
  | none => .error (.unboundLocalError "last_meta_file")
  | some last_meta_file =>
    let previously_completed_tickets :=
      (last_meta_file.filter (fun r => labels.contains r.status)).map (·.ticket_id)
    .ok (completed_tickets.filter
      (fun r => !(previously_completed_tickets.contains r.ticket_id)))

/-- Embedding of `CompletedTicketNotifier.get_completed_tickets` (lines 41-74).
`current` is the metafile freshly generated from Notion; `previousMeta` and
`notifLog` are the two S3 fetches, `none` when the fetch raises. -/
def get_completed_tickets (labels : List String) (current : List TicketRecord)
    (previousMeta : Option (List TicketRecord)) (notifLog : Option (List LogEntry)) :
    Except PyError (List TicketRecord) :=
  let completed_tickets := filterCompleted labels current
  match filter_records_marked_completed_not_notified labels previousMeta completed_tickets with
  | .error e => .error e
  | .ok filtered_tickets => .ok (check_notifications_log notifLog filtered_tickets)

/-- Per-record outcome of the two `slack.post_message` calls inside the try
block of `send_notifications`: whether posting the user message and the team
message raises.  The team message is only attempted when the user message
succeeded (source order inside the try block). -/
structure SendOracle where
  userOk : TicketRecord → Bool
  teamOk : TicketRecord → Bool

/-- The log dict appended for one candidate (lines 188-201). -/
def mkEntry (o : SendOracle) (now : String) (r : TicketRecord) : LogEntry :=
  { ticket_id := r.ticket_id
    notification_status := if o.userOk r && o.teamOk r then "success" else "failed"
    notified_at := now }

/-- Embedding of `CompletedTicketNotifier.send_notifications` (lines 150-202).
Per candidate, `datetime.strptime(created_at, datetime_format)` runs at line
164, OUTSIDE the try block that starts at line 190: an unparseable
`created_at` raises `ValueError` out of the whole method, losing the entries
accumulated so far.  A send failure inside the try block is caught and
recorded as a `failed` entry.  The rendered message text does not influence
the log and is not modelled; `now` is the tick's clock reading. -/
def send_notifications (o : SendOracle) (now : String) (meta_data : List TicketRecord) :
    Except PyError (List LogEntry) :=
  match meta_data with
  | [] => .ok []
  | rec :: rest =>
    match parseDateTime rec.created_at with
    | none => .error .valueError
    | some _ =>
      match send_notifications o now rest with
      | .error e => .error e
      | .ok entries => .ok (mkEntry o now rec :: entries)

/-- The candidates for which at least the user-facing message is posted
before `send_notifications` raises: the prefix of records whose `created_at`
parses (the unparseable record raises before its first `post_message`). -/
def attemptedSends (meta_data : List TicketRecord) : List TicketRecord :=
  meta_data.takeWhile (fun r => (parseDateTime r.created_at).isSome)

/-- Embedding of `CompletedTicketNotifier.log_notifications` (lines 204-219).
`notif_log` is the state of the attribute `self.notif_log` when the method
runs: `none` when `__check_notifications_log` never assigned it (its fetch
raised), in which case `if self.notif_log:` raises `AttributeError`.
`file_date` is the tick's `now.strftime(date_file_name_format)` value.
Returns the merged entry list written and the file key. -/
def log_notifications (notif_log : Option (List LogEntry)) (file_date : String)
    (data : List LogEntry) : Except PyError (List LogEntry × String) :=
  match notif_log with
  | none => .error (.attributeError "notif_log")
  | some prev =>
    let merged := match prev.isEmpty with | true => data | false => data ++ prev
    let key := "notifications/" ++ file_date ++ ".csv"
    match write_to_s3 (merged.map LogEntry.toRow) key with
    | .error e => .error e
    | .ok _ => .ok (merged, key)

/-- Embedding of `CompletedTicketNotifier.notify` (lines 221-231): the whole notification
tick.  Returns `none` when there is nothing to notify (no write), or the
written log snapshot and its key. -/
def notify (labels : List String) (current : List TicketRecord)
    (previousMeta : Option (List TicketRecord)) (notifLog : Option (List LogEntry))
    (o : SendOracle) (now file_date : String) :
    Except PyError (Option (List LogEntry × String)) :=
  match get_completed_tickets labels current previousMeta notifLog with
  | .error e => .error e
  | .ok contacts =>
    if contacts.isEmpty then .ok none
    else
      match send_notifications o now contacts with
      | .error e => .error e
      | .ok log =>
        match log_notifications notifLog file_date log with
        | .error e => .error e
        | .ok w => .ok (some w)

/-! ### The notification log across ticks

The store state visible to the pipeline is the content of the most recently
modified file under the `notifications` prefix (`none` when no file is
retrievable) together with every log snapshot ever written.  One tick is one
call of `CompletedTicketNotifier.notify` on a fresh object (`run.py`,
`background_jobs` builds a new `CompletedTicketNotifier` each tick).  After a
successful write the new file is the most recently modified one (single
writer, monotone modification times, spec section 5); retention pruning as
implemented removes nothing (see `delete_meta_files` below), so the
retrievable log never regresses. -/

structure SysState where
  log : Option (List LogEntry)
  snapshots : List (List LogEntry)
  deriving Repr

/-- The per-tick inputs the notification pipeline consumes besides the log
store: the configured completed labels, the fresh metafile, the previous
metafile fetch, the Slack send outcomes and the clock readings. -/
structure TickInput where
  labels : List String
  current : List TicketRecord
  previousMeta : Option (List TicketRecord)
  oracle : SendOracle
  now : String
  file_date : String

/-- One scheduler tick: run `notify` against the store; a tick that raises
leaves the store unchanged (the `write_to_s3` call is the only store
mutation in the pipeline and is its last step). -/
def tick (i : TickInput) (st : SysState) : SysState :=
  match notify i.labels i.current i.previousMeta st.log i.oracle i.now i.file_date with
  | .error _ => st
  | .ok none => st
  | .ok (some (written, _)) => { log := some written, snapshots := written :: st.snapshots }

/-- A sequence of scheduler ticks. -/
def run (ticks : List TickInput) (st : SysState) : SysState :=
  ticks.foldl (fun s i => tick i s) st

/-- The store invariant: every written snapshot has pairwise-distinct
successful ticket ids; the retrievable log, when present, also does and
subsumes the success ids of every written snapshot; when no log is
retrievable, nothing was ever written. -/
abbrev StateOk (st : SysState) : Prop :=
  (∀ L ∈ st.snapshots, (successIds L).Nodup) ∧
  (match st.log with
   | none => st.snapshots = []
   | some L0 =>
     (successIds L0).Nodup ∧
     ∀ L ∈ st.snapshots, ∀ t ∈ successIds L, t ∈ successIds L0)

/-! ### The S3 store, retention pruning and metafile persistence -/

/-- One S3 object: key and storage-reported last-modified time (abstract
clock, naturals). -/
structure S3Object where
  key : String
  lastModified : Nat
  deriving Repr, DecidableEq

abbrev Store := List S3Object

/-- Embedding of `S3BucketConnector.remove_object` (s3.py lines 131-139):
`delete_object` removes the key when present and succeeds silently
otherwise. -/
def remove_object (store : Store) (file_name : String) : Store :=
  store.filter (fun o => !(o.key == file_name))

/-- Whether `p` is a leading run of `l`: the membership test of the S3
`objects.filter(Prefix=...)` listing. -/
def startsWithChars : List Char → List Char → Bool
  | _, [] => true
  | [], _ :: _ => false
  | a :: as, b :: bs => a == b && startsWithChars as bs

/-- Embedding of `MetaProcess.delete_meta_files` (meta_process.py lines 56-81): collect
the keys under the prefix whose last-modified time is strictly before the
threshold, excluding the placeholder `{pfx}/` key, then call
`remove_object(f"{file}.csv")` on each — the source appends a second
`.csv` to keys that already carry one. -/
def delete_meta_files (store : Store) (pfx : String) (date_threshold : Nat) : Store :=
  let to_delete :=
    (store.filter (fun o =>
      startsWithChars o.key.data pfx.data && decide (o.lastModified < date_threshold)
        && !(o.key == pfx ++ "/"))).map (·.key)
  to_delete.foldl (fun s k => remove_object s (k ++ ".csv")) store

/-- The dict merge `{**file, **{"uploaded_at": log_date}}` (meta_process.py line 52): a
merge keeps insertion order for an existing key and appends a new key at the
end. -/
def setField (r : Row) (k v : String) : Row :=
  match r.any (fun p => p.1 == k) with
  | true => r.map (fun p => match p.1 == k with | true => (k, v) | false => p)
  | false => r ++ [(k, v)]

/-- Embedding of `MetaProcess.load_meta_file` (meta_process.py lines 37-54): stamp every
record with `uploaded_at` in the canonical datetime format and write the
snapshot under `{pfx}/{YYYYMMDD_HHMM}.csv`; `now` is the tick's clock
reading. -/
def load_meta_file (now : DateTime) (meta_file : List Row) (pfx : String) :
    Except PyError WriteResult :=
  let log_date := formatDateTime now
  let file_date := formatFileDate now
  let stamped := meta_file.map (fun r => setField r "uploaded_at" log_date)
  write_to_s3 stamped (pfx ++ "/" ++ file_date ++ ".csv")

/-! ### General lemmas about the embedded operations -/

theorem successIds_append (a b : List LogEntry) :
    successIds (a ++ b) = successIds a ++ successIds b := by
  simp [successIds, List.filter_append]

theorem mem_successIds {t : String} {log : List LogEntry} :
    t ∈ successIds log
      ↔ ∃ e ∈ log, e.ticket_id = t ∧ e.notification_status = "success" := by
  simp only [successIds, isSuccess, List.mem_map, List.mem_filter, beq_iff_eq]
  constructor
  · rintro ⟨e, ⟨h1, h2⟩, h3⟩
    exact ⟨e, h1, h3, h2⟩
  · rintro ⟨e, h1, h2, h3⟩
    exact ⟨e, ⟨h1, h3⟩, h2⟩

theorem contains_eq_decide_mem (l : List String) (t : String) :
    l.contains t = decide (t ∈ l) := by
  induction l with
  | nil => rfl
  | cons a as ih =>
    simp [List.contains_cons, ih, List.mem_cons, beq_iff_eq]

theorem successIds_sublist (l : List LogEntry) :
    List.Sublist (successIds l) (l.map LogEntry.ticket_id) :=
  (List.filter_sublist l).map _

/-! ### Claim theorems: the dedup filter and the completion diff -/

/-- Claim C2: the dedup filter returns exactly the candidates whose
`ticket_id` has no log entry with `notification_status = "success"` (so a
ticket with only `failed` entries is kept), preserving the candidates'
relative order, and returns the candidate list unchanged when no log is
retrievable. -/
theorem c2_dedup_filter (cands : List TicketRecord) (log : List LogEntry) :
    check_notifications_log none cands = cands
    ∧ check_notifications_log (some log) cands
        = cands.filter (fun r =>
            decide (¬ ∃ e ∈ log,
              e.ticket_id = r.ticket_id ∧ e.notification_status = "success"))
    ∧ List.Sublist (check_notifications_log (some log) cands) cands := by
  refine ⟨rfl, ?_, ?_⟩
  · unfold check_notifications_log
    apply List.filter_congr
    intro r _
    rw [contains_eq_decide_mem, Bool.eq_iff_iff]
    simp [mem_successIds]
  · unfold check_notifications_log
    exact List.filter_sublist cands

/-- A concrete completed ticket used for counterexample and bug-exhibiting
theorems. -/
def sampleTicket : TicketRecord :=
  ⟨"1", "Done", "T1", "2024-01-02 03:04:05", "2024-02-01", "http://x", "U1"⟩

/-- Claim C3 (code bug): with a previous snapshot present the completion
diff returns exactly the records of `current` whose status is in the
completed-label set and whose `ticket_id` had no completed status in the
previous snapshot, in `current`'s order; but when the previous snapshot is
absent the stage does not return the currently-completed records — the
except branch of `__filter_records_marked_completed_not_notified` falls
through to the comprehension over the never-assigned local `last_meta_file`
and the tick dies with `UnboundLocalError`. -/
theorem c3_completion_diff :
    (∀ labels current prev,
      filter_records_marked_completed_not_notified labels (some prev)
          (filterCompleted labels current)
        = .ok (current.filter (fun r =>
            labels.contains r.status &&
            decide (¬ ∃ p ∈ prev, p.ticket_id = r.ticket_id ∧ p.status ∈ labels))))
    ∧ filter_records_marked_completed_not_notified ["Done"] none
        (filterCompleted ["Done"] [sampleTicket])
      = .error (.unboundLocalError "last_meta_file") := by
  refine ⟨?_, rfl⟩
  intro labels current prev
  show Except.ok (List.filter _ (List.filter _ current)) = _
  rw [List.filter_filter]
  congr 1
  apply List.filter_congr
  intro r _
  rw [Bool.eq_iff_iff]
  simp only [Bool.and_eq_true, Bool.not_eq_true', decide_eq_false_iff_not,
    decide_eq_true_eq, contains_eq_decide_mem, List.mem_map, List.mem_filter]
  constructor
  · rintro ⟨h2, h1⟩
    refine ⟨h1, ?_⟩
    rintro ⟨p, hp, hpid, hst⟩
    exact h2 ⟨p, ⟨hp, hst⟩, hpid⟩
  · rintro ⟨h1, h2⟩
    refine ⟨?_, h1⟩
    rintro ⟨p, ⟨hp, hst⟩, hpid⟩
    exact h2 ⟨p, hp, hpid, hst⟩

/-- Claim C4 (code bug): when the fetch of the previous meta snapshot
raises, the diff stage is supposed to log and fall back to cold start, but
for every input it instead raises `UnboundLocalError` from the comprehension
over the unassigned local `last_meta_file`: the exception escapes the diff
stage and fails the tick. -/
theorem c4_previous_fetch_fault (labels : List String)
    (completed : List TicketRecord) :
    filter_records_marked_completed_not_notified labels none completed
      = .error (.unboundLocalError "last_meta_file") := rfl

/-! ### Claim theorems: the CSV writer, retention pruning, persistence -/

/-- Claim C10: calling the CSV write operation with an empty record list
raises `IndexError` (`data[0].keys()` runs before the `if not data` guard),
so the guarded empty-list branch that would log and skip the write is
unreachable for every input. -/
theorem c10_write_empty_raises :
    (∀ fn, write_to_s3 [] fn = .error .indexError)
    ∧ ∀ data fn, write_to_s3 data fn ≠ .ok .skipped := by
  refine ⟨fun _ => rfl, ?_⟩
  intro data fn h
  cases data with
  | nil => simp [write_to_s3] at h
  | cons r rest => simp [write_to_s3] at h

/-- A snapshot file whose last-modified time lies before the pruning
threshold used in `c8_prune_deletes_nothing`. -/
def oldSnapshotFile : S3Object := ⟨"data_tickets/20220101_1200.csv", 5⟩

/-- The directory placeholder object of the `data_tickets` prefix. -/
def placeholderObj : S3Object := ⟨"data_tickets/", 0⟩

/-- Claim C8 (code bug): pruning is supposed to delete exactly the files
under the prefix whose last-modified time is strictly before the threshold,
but `delete_meta_files` appends a second `.csv` to every selected key
(`remove_object(f"{file}.csv")`), so the deletes address nonexistent keys
and the store is left unchanged: the qualifying old snapshot file survives. -/
theorem c8_prune_deletes_nothing :
    oldSnapshotFile.lastModified < 10
    ∧ delete_meta_files [oldSnapshotFile, placeholderObj] "data_tickets" 10
        = [oldSnapshotFile, placeholderObj]
    ∧ oldSnapshotFile ∈ delete_meta_files [oldSnapshotFile, placeholderObj] "data_tickets" 10 := by
  decide

theorem lookup_map_replace (r : Row) (k v : String) :
    r.any (fun p => p.1 == k) = true →
    List.lookup k (r.map (fun p => match p.1 == k with | true => (k, v) | false => p))
      = some v := by
  induction r with
  | nil => intro h; simp at h
  | cons p ps ih =>
    intro h
    by_cases hp : p.1 = k
    · have hp' : (p.1 == k) = true := beq_iff_eq.mpr hp
      simp [hp', List.lookup]
    · have hp' : (p.1 == k) = false := beq_eq_false_iff_ne.mpr hp
      have hk' : (k == p.1) = false := beq_eq_false_iff_ne.mpr (Ne.symm hp)
      simp only [List.any_cons, hp', Bool.false_or] at h
      simp [hp', List.lookup, hk', ih h]

theorem lookup_append_single (r : Row) (k v : String) :
    r.any (fun p => p.1 == k) = false →
    List.lookup k (r ++ [(k, v)]) = some v := by
  induction r with
  | nil => intro _; simp [List.lookup]
  | cons p ps ih =>
    intro h
    simp only [List.any_cons, Bool.or_eq_false_iff] at h
    have hk' : (k == p.1) = false :=
      beq_eq_false_iff_ne.mpr (Ne.symm (beq_eq_false_iff_ne.mp h.1))
    simp only [List.cons_append, List.lookup, hk']
    exact ih h.2

theorem lookup_setField (r : Row) (k v : String) :
    List.lookup k (setField r k v) = some v := by
  cases h : r.any (fun p => p.1 == k) with
  | true => simpa [setField, h] using lookup_map_replace r k v h
  | false => simpa [setField, h] using lookup_append_single r k v h

/-- Clock reading used by the concrete persistence and notification
theorems. -/
def sampleNow : DateTime := ⟨2024, 1, 2, 3, 4, 5⟩

/-- Claim C9 counterexample: persisting an empty built snapshot does not
write a file at all — `write_to_s3` raises `IndexError` on the empty record
list, so "persisting writes one new file" fails for the empty snapshot. -/
theorem c9_empty_snapshot_no_write :
    load_meta_file sampleNow [] "data_tickets" = .error .indexError
    ∧ ∀ w, load_meta_file sampleNow [] "data_tickets" ≠ .ok w := by
  refine ⟨rfl, ?_⟩
  intro w h
  rw [show load_meta_file sampleNow [] "data_tickets" = .error .indexError from rfl] at h
  cases h

/-- Claim C9 (amended: restricted to non-empty built snapshots, as the
`IndexError` of `c9_empty_snapshot_no_write` forces): persisting a
non-empty built snapshot writes one file named
`{pfx}/{YYYYMMDD_HHMM}.csv`, derived from the current timestamp, and every
written record carries an `uploaded_at` field equal to the write time in
the canonical `YYYY-MM-DD HH:MM:SS` format. -/
theorem c9_persist_naming_and_stamp (now : DateTime) (meta : List Row) (pfx : String)
    (h : meta ≠ []) :
    ∃ fields rows,
      load_meta_file now meta pfx
        = .ok (.written fields rows (pfx ++ "/" ++ formatFileDate now ++ ".csv"))
      ∧ rows.length = meta.length
      ∧ ∀ r ∈ rows, List.lookup "uploaded_at" r = some (formatDateTime now) := by
  cases hm : meta with
  | nil => exact absurd hm h
  | cons r0 rest =>
    refine ⟨_, _, rfl, by simp, ?_⟩
    intro r hr
    simp only [List.mem_map] at hr
    obtain ⟨s, _, hs⟩ := hr
    rw [← hs]
    exact lookup_setField s "uploaded_at" (formatDateTime now)

/-- Witness for `c9_persist_naming_and_stamp` at a one-record snapshot. -/
theorem c9_persist_naming_and_stamp_witness :
    ([[("ticket_id", "1")]] : List Row) ≠ []
    ∧ ∃ fields rows,
        load_meta_file sampleNow [[("ticket_id", "1")]] "data_tickets"
          = .ok (.written fields rows
              ("data_tickets" ++ "/" ++ formatFileDate sampleNow ++ ".csv"))
        ∧ rows.length = ([[("ticket_id", "1")]] : List Row).length
        ∧ ∀ r ∈ rows, List.lookup "uploaded_at" r = some (formatDateTime sampleNow) :=
  ⟨by decide,
   c9_persist_naming_and_stamp sampleNow [[("ticket_id", "1")]] "data_tickets" (by decide)⟩

/-! ### Claim theorems: the notifier and the log writer -/

/-- A second completed ticket with a distinct id. -/
def sampleTicket2 : TicketRecord :=
  ⟨"2", "Done", "T2", "2024-01-03 03:04:05", "2024-02-01", "http://y", "U2"⟩

/-- A completed ticket whose `created_at` is not in the canonical datetime
format. -/
def badTicket : TicketRecord :=
  ⟨"3", "Done", "T3", "not-a-date", "2024-02-01", "http://z", "U3"⟩

/-- Slack client behaviour where every post succeeds. -/
def oracleAllOk : SendOracle := ⟨fun _ => true, fun _ => true⟩

/-- Slack client behaviour where posting the user message raises exactly
for ticket id "1". -/
def oracleFailFirst : SendOracle := ⟨fun r => !(r.ticket_id == "1"), fun _ => true⟩

/-- A persisted `success` log entry for ticket id "1". -/
def successEntry1 : LogEntry := ⟨"1", "success", "2024-01-01 00:00:00"⟩

/-- Claim C6 counterexample: a candidate whose `created_at` is not in the
canonical format makes `send_notifications` raise `ValueError` —
`strptime` runs before the try block — so no entry list is produced; with
the bad candidate second, the first candidate's already-built entry is
dropped too, and the notifier does re-raise. -/
theorem c6_unparseable_date_escapes :
    send_notifications oracleAllOk "2024-01-05 00:00:00" [badTicket] = .error .valueError
    ∧ send_notifications oracleAllOk "2024-01-05 00:00:00" [sampleTicket2, badTicket]
        = .error .valueError := by
  exact ⟨by decide, by decide⟩

/-- Claim C6 (amended: restricted to candidate lists whose `created_at`
fields parse in the canonical datetime format, as
`c6_unparseable_date_escapes` forces): the notifier walks the candidates in
input order and produces exactly one log entry per candidate, with
`notification_status = "success"` iff both the user-facing and team-facing
sends succeed and `"failed"` if either raises; a raising send is caught,
the loop continues, and the notifier never re-raises. -/
theorem c6_send_isolation (o : SendOracle) (now : String) (meta : List TicketRecord)
    (h : ∀ r ∈ meta, (parseDateTime r.created_at).isSome = true) :
    send_notifications o now meta = .ok (meta.map (mkEntry o now)) := by
  induction meta with
  | nil => rfl
  | cons r rest ih =>
    obtain ⟨d, hd⟩ := Option.isSome_iff_exists.mp (h r (List.mem_cons_self _ _))
    have ht := ih (fun x hx => h x (List.mem_cons_of_mem _ hx))
    simp [send_notifications, hd, ht]

/-- Witness for `c6_send_isolation`: the spec's example — two candidates,
the first send raises, the second succeeds; the log keeps one `failed` and
one `success` entry in input order. -/
theorem c6_send_isolation_witness :
    (∀ r ∈ [sampleTicket, sampleTicket2], (parseDateTime r.created_at).isSome = true)
    ∧ send_notifications oracleFailFirst "2024-01-05 00:00:00" [sampleTicket, sampleTicket2]
        = .ok [⟨"1", "failed", "2024-01-05 00:00:00"⟩,
               ⟨"2", "success", "2024-01-05 00:00:00"⟩] :=
  ⟨by decide,
   (c6_send_isolation oracleFailFirst "2024-01-05 00:00:00" [sampleTicket, sampleTicket2]
      (by decide)).trans (by decide)⟩

theorem send_ok_map {o : SendOracle} {now : String} {l : List TicketRecord}
    {es : List LogEntry} (h : send_notifications o now l = .ok es) :
    es = l.map (mkEntry o now) := by
  induction l generalizing es with
  | nil =>
    simp only [send_notifications] at h
    cases h
    rfl
  | cons r rest ih =>
    simp only [send_notifications] at h
    cases hp : parseDateTime r.created_at with
    | none => rw [hp] at h; cases h
    | some d =>
      rw [hp] at h
      cases hs : send_notifications o now rest with
      | error e => rw [hs] at h; cases h
      | ok es' =>
        rw [hs] at h
        cases h
        simp [ih hs]

theorem log_notifications_some (prev : List LogEntry) (fd : String)
    (data : List LogEntry) (hd : data ≠ []) :
    log_notifications (some prev) fd data
      = .ok (data ++ prev, "notifications/" ++ fd ++ ".csv") := by
  cases data with
  | nil => exact absurd rfl hd
  | cons a l =>
    cases prev with
    | nil => simp [log_notifications, write_to_s3, LogEntry.toRow]
    | cons b m => simp [log_notifications, write_to_s3, LogEntry.toRow]

/-- Claim C5: whenever the log writer writes a snapshot it is exactly the
tick's new entries followed by the previous log snapshot's entries (new
first, nothing dropped), and a tick with zero new entries performs no
write at all. -/
theorem c5_log_writer (labels : List String) (current : List TicketRecord)
    (pm : Option (List TicketRecord)) (prevLog : List LogEntry)
    (o : SendOracle) (now fd : String)
    (contacts : List TicketRecord) (entries : List LogEntry)
    (hc : get_completed_tickets labels current pm (some prevLog) = .ok contacts)
    (hs : send_notifications o now contacts = .ok entries) :
    (entries = [] → notify labels current pm (some prevLog) o now fd = .ok none)
    ∧ (entries ≠ [] →
        notify labels current pm (some prevLog) o now fd
          = .ok (some (entries ++ prevLog, "notifications/" ++ fd ++ ".csv"))) := by
  have hmap := send_ok_map hs
  constructor
  · intro he
    have hcon : contacts = [] := by
      cases hcc : contacts with
      | nil => rfl
      | cons a l =>
        rw [hcc] at hmap
        rw [hmap] at he
        simp at he
    subst hcon
    simp [notify, hc]
  · intro he
    have hcon : contacts ≠ [] := by
      intro hq
      rw [hq] at hmap
      exact he (by simpa using hmap)
    have hE : contacts.isEmpty = false := by
      cases contacts with
      | nil => exact absurd rfl hcon
      | cons a l => rfl
    simp [notify, hc, hE, hs, log_notifications_some prevLog fd entries he]

/-- Witness for `c5_log_writer`: one new success entry gets written ahead
of the one previously persisted entry. -/
theorem c5_log_writer_witness :
    get_completed_tickets ["Done"] [sampleTicket2] (some []) (some [successEntry1])
      = .ok [sampleTicket2]
    ∧ send_notifications oracleAllOk "2024-01-05 00:00:00" [sampleTicket2]
        = .ok [⟨"2", "success", "2024-01-05 00:00:00"⟩]
    ∧ ((([⟨"2", "success", "2024-01-05 00:00:00"⟩] : List LogEntry) = [] →
          notify ["Done"] [sampleTicket2] (some []) (some [successEntry1]) oracleAllOk
            "2024-01-05 00:00:00" "20240105_0000" = .ok none)
       ∧ (([⟨"2", "success", "2024-01-05 00:00:00"⟩] : List LogEntry) ≠ [] →
          notify ["Done"] [sampleTicket2] (some []) (some [successEntry1]) oracleAllOk
            "2024-01-05 00:00:00" "20240105_0000"
            = .ok (some ([⟨"2", "success", "2024-01-05 00:00:00"⟩] ++ [successEntry1],
                "notifications/" ++ "20240105_0000" ++ ".csv")))) :=
  ⟨by decide, by decide,
   c5_log_writer ["Done"] [sampleTicket2] (some []) [successEntry1] oracleAllOk
     "2024-01-05 00:00:00" "20240105_0000" [sampleTicket2]
     [⟨"2", "success", "2024-01-05 00:00:00"⟩] (by decide) (by decide)⟩

/-- Claim C7: on a tick with a non-empty candidate set where no previous
notification log is retrievable, `self.notif_log` is never assigned, so
after the notifications are sent the log-writing step raises
`AttributeError` and the tick's new log entries are never persisted (the
store is unchanged). -/
theorem c7_first_run_log_write_crashes :
    get_completed_tickets ["Done"] [sampleTicket] (some []) none = .ok [sampleTicket]
    ∧ send_notifications oracleAllOk "2024-01-05 00:00:00" [sampleTicket]
        = .ok [⟨"1", "success", "2024-01-05 00:00:00"⟩]
    ∧ notify ["Done"] [sampleTicket] (some []) none oracleAllOk
        "2024-01-05 00:00:00" "20240105_0000" = .error (.attributeError "notif_log")
    ∧ tick ⟨["Done"], [sampleTicket], some [], oracleAllOk,
        "2024-01-05 00:00:00", "20240105_0000"⟩ ⟨none, []⟩ = ⟨none, []⟩ :=
  ⟨by decide, by decide, by decide, rfl⟩

/-! ### Claim C1: exactly-once across ticks -/

theorem mem_check_some {prev : List LogEntry} {base : List TicketRecord}
    {r : TicketRecord} (hr : r ∈ check_notifications_log (some prev) base) :
    r ∈ base ∧ r.ticket_id ∉ successIds prev := by
  simp only [check_notifications_log, List.mem_filter, contains_eq_decide_mem,
    Bool.not_eq_true', decide_eq_false_iff_not] at hr
  exact hr

theorem check_sublist (nl : Option (List LogEntry)) (base : List TicketRecord) :
    List.Sublist (check_notifications_log nl base) base := by
  cases nl with
  | none => exact List.Sublist.refl base
  | some log => exact List.filter_sublist base

theorem get_completed_ok {labels : List String} {current : List TicketRecord}
    {pm : Option (List TicketRecord)} {nl : Option (List LogEntry)}
    {contacts : List TicketRecord}
    (h : get_completed_tickets labels current pm nl = .ok contacts) :
    ∃ pmv, pm = some pmv ∧
      contacts = check_notifications_log nl
        ((filterCompleted labels current).filter
          (fun r => !(((pmv.filter (fun p => labels.contains p.status)).map
              (·.ticket_id)).contains r.ticket_id))) := by
  cases pm with
  | none =>
    simp [get_completed_tickets, filter_records_marked_completed_not_notified] at h
  | some pmv =>
    refine ⟨pmv, rfl, ?_⟩
    simp only [get_completed_tickets, filter_records_marked_completed_not_notified,
      Except.ok.injEq] at h
    exact h.symm

theorem get_completed_props {labels : List String} {current : List TicketRecord}
    {pm : Option (List TicketRecord)} {nl : Option (List LogEntry)}
    {contacts : List TicketRecord}
    (h : get_completed_tickets labels current pm nl = .ok contacts) :
    List.Sublist contacts current
    ∧ ∀ prev, nl = some prev → ∀ r ∈ contacts, r.ticket_id ∉ successIds prev := by
  obtain ⟨pmv, _, hcon⟩ := get_completed_ok h
  subst hcon
  constructor
  · exact ((check_sublist _ _).trans (List.filter_sublist _)).trans (List.filter_sublist _)
  · intro prev hnl r hr
    subst hnl
    exact (mem_check_some hr).2

theorem entries_ids {o : SendOracle} {now : String} (contacts : List TicketRecord) :
    (contacts.map (mkEntry o now)).map LogEntry.ticket_id
      = contacts.map TicketRecord.ticket_id := by
  simp only [List.map_map]
  rfl

theorem tick_preserves (i : TickInput) (st : SysState)
    (hok : StateOk st) (hid : (i.current.map TicketRecord.ticket_id).Nodup) :
    StateOk (tick i st) := by
  cases hn : notify i.labels i.current i.previousMeta st.log i.oracle i.now i.file_date with
  | error e => simpa [tick, hn] using hok
  | ok w =>
    cases w with
    | none => simpa [tick, hn] using hok
    | some p =>
      obtain ⟨written, key⟩ := p
      have hgoal : tick i st = ⟨some written, written :: st.snapshots⟩ := by
        simp [tick, hn]
      rw [hgoal]
      -- invert the successful notify call
      cases hc : get_completed_tickets i.labels i.current i.previousMeta st.log with
      | error e =>
        simp only [notify, hc] at hn
        cases hn
      | ok contacts =>
        cases hE : contacts.isEmpty with
        | true =>
          simp only [notify, hc, hE, if_true] at hn
          cases hn
        | false =>
          cases hs : send_notifications i.oracle i.now contacts with
          | error e =>
            simp only [notify, hc, hE, hs, if_false, Bool.false_eq_true] at hn
            cases hn
          | ok entries =>
            have hne : entries ≠ [] := by
              have hmap := send_ok_map hs
              cases hcc : contacts with
              | nil => rw [hcc] at hE; simp at hE
              | cons a l =>
                rw [hcc] at hmap
                rw [hmap]
                simp
            cases hlog : st.log with
            | none =>
              rw [hlog] at hn hc
              simp only [notify, hc, hE, hs, log_notifications,
                Bool.false_eq_true, if_false] at hn
              cases hn
            | some prev =>
              rw [hlog] at hn hc
              simp only [notify, hc, hE, hs, Bool.false_eq_true, if_false,
                log_notifications_some prev i.file_date entries hne,
                Except.ok.injEq, Option.some.injEq, Prod.mk.injEq] at hn
              obtain ⟨hw, -⟩ := hn
              -- the invariant for the new state
              obtain ⟨h1, h2⟩ := hok
              rw [hlog] at h2
              obtain ⟨hndprev, hsub2⟩ := h2
              obtain ⟨hsubc, hnosucc⟩ := get_completed_props hc
              have hmap := send_ok_map hs
              have hids_contacts : (contacts.map TicketRecord.ticket_id).Nodup :=
                hid.sublist (hsubc.map _)
              have hids_entries : (entries.map LogEntry.ticket_id).Nodup := by
                rw [hmap, entries_ids]
                exact hids_contacts
              have hnd_se : (successIds entries).Nodup :=
                hids_entries.sublist (successIds_sublist entries)
              have hdisj : ∀ t ∈ successIds entries, t ∉ successIds prev := by
                intro t htent
                have htid : t ∈ entries.map LogEntry.ticket_id :=
                  (successIds_sublist entries).subset htent
                rw [hmap, entries_ids] at htid
                obtain ⟨r, hrc, hrt⟩ := List.mem_map.mp htid
                rw [← hrt]
                exact hnosucc prev rfl r hrc
              have hnd_new : (successIds written).Nodup := by
                rw [← hw, successIds_append]
                exact List.nodup_append.mpr ⟨hnd_se, hndprev, hdisj⟩
              constructor
              · intro L hL
                rcases List.mem_cons.mp hL with hL | hL
                · rw [hL]; exact hnd_new
                · exact h1 L hL
              · refine ⟨hnd_new, ?_⟩
                intro L hL t ht
                rcases List.mem_cons.mp hL with hL | hL
                · rw [hL] at ht; exact ht
                · have hp := hsub2 L hL t ht
                  rw [← hw, successIds_append]
                  exact List.mem_append_right _ hp

theorem run_preserves (ticks : List TickInput) (st : SysState)
    (hok : StateOk st)
    (hids : ∀ i ∈ ticks, (i.current.map TicketRecord.ticket_id).Nodup) :
    StateOk (run ticks st) := by
  induction ticks generalizing st with
  | nil => exact hok
  | cons i is ih =>
    exact ih (tick i st) (tick_preserves i st hok (hids i (List.mem_cons_self _ _)))
      (fun j hj => hids j (List.mem_cons_of_mem _ hj))

theorem stateOk_no_resend {st : SysState} (hok : StateOk st)
    {L : List LogEntry} (hL : L ∈ st.snapshots) {t : String} (ht : t ∈ successIds L)
    (cands : List TicketRecord) {r : TicketRecord}
    (hr : r ∈ attemptedSends (check_notifications_log st.log cands)) :
    r.ticket_id ≠ t := by
  obtain ⟨h1, h2⟩ := hok
  cases hlog : st.log with
  | none =>
    rw [hlog] at h2
    rw [show st.snapshots = [] from h2] at hL
    cases hL
  | some L0 =>
    rw [hlog] at h2 hr
    obtain ⟨-, hsub⟩ := h2
    have htL0 : t ∈ successIds L0 := hsub L hL t ht
    have hr' : r ∈ check_notifications_log (some L0) cands :=
      (List.takeWhile_sublist _).subset hr
    intro he
    rw [← he] at htL0
    exact (mem_check_some hr').2 htL0

/-- Claim C1: starting from any store satisfying the log invariant, over
any sequence of ticks whose metafiles carry pairwise-distinct ticket ids,
every notification log snapshot ever written contains at most one
`success` entry per `ticket_id`; and once a written snapshot holds a
`success` entry for a ticket, no later tick attempts any send for that
ticket — the dedup filter drops it before a message is posted. -/
theorem c1_exactly_once (ticks : List TickInput) (st0 : SysState)
    (h0 : StateOk st0)
    (hids : ∀ i ∈ ticks, (i.current.map TicketRecord.ticket_id).Nodup) :
    StateOk (run ticks st0)
    ∧ (∀ L ∈ (run ticks st0).snapshots, ∀ t, (successIds L).count t ≤ 1)
    ∧ (∀ L ∈ (run ticks st0).snapshots, ∀ t ∈ successIds L,
        ∀ cands : List TicketRecord,
          ∀ r ∈ attemptedSends (check_notifications_log (run ticks st0).log cands),
            r.ticket_id ≠ t) := by
  have hrun : StateOk (run ticks st0) := run_preserves ticks st0 h0 hids
  refine ⟨hrun, ?_, ?_⟩
  · intro L hL t
    exact List.nodup_iff_count_le_one.mp (hrun.1 L hL) t
  · intro L hL t ht cands r hr
    exact stateOk_no_resend hrun hL ht cands hr

/-- A tick input whose metafile holds the already-notified ticket "1" and
the fresh ticket "2". -/
def sampleTickInput : TickInput :=
  ⟨["Done"], [sampleTicket, sampleTicket2], some [], oracleAllOk,
   "2024-01-05 00:00:00", "20240105_0000"⟩

/-- Witness for `c1_exactly_once`: one tick against a store already holding
a success entry for ticket "1". -/
theorem c1_exactly_once_witness :
    StateOk ⟨some [successEntry1], [[successEntry1]]⟩
    ∧ (∀ i ∈ [sampleTickInput], (i.current.map TicketRecord.ticket_id).Nodup)
    ∧ (StateOk (run [sampleTickInput] ⟨some [successEntry1], [[successEntry1]]⟩)
       ∧ (∀ L ∈ (run [sampleTickInput] ⟨some [successEntry1], [[successEntry1]]⟩).snapshots,
            ∀ t, (successIds L).count t ≤ 1)
       ∧ (∀ L ∈ (run [sampleTickInput] ⟨some [successEntry1], [[successEntry1]]⟩).snapshots,
            ∀ t ∈ successIds L,
            ∀ cands : List TicketRecord,
              ∀ r ∈ attemptedSends (check_notifications_log
                  (run [sampleTickInput] ⟨some [successEntry1], [[successEntry1]]⟩).log cands),
                r.ticket_id ≠ t)) :=
  ⟨by decide, by decide,
   c1_exactly_once [sampleTickInput] ⟨some [successEntry1], [[successEntry1]]⟩
     (by decide) (by decide)⟩

end SlackApp
